import Mathlib

/-!
Verification of `jupyter_rfb/_utils.py` against its design spec.

The development shallowly embeds the module's four components:
* the image compressor `array2compressed` (with its JPEG-XL variant),
* the output-capture context `RFBOutputContext`,
* the `Snapshot` HTML renderer,
* the notebook pruner `remove_rfb_models_from_nb`.

External codec libraries (PNG/JPEG/JPEG-XL encoders) are modelled as
abstract functions collected in a `Codecs` structure; Python stdlib
pieces that the code routes data through (`print` formatting,
`base64.encodebytes`, `str.replace`, `str.strip`) are modelled from
their documented semantics, since they are not part of this repository.
-/

namespace JupyterRfb

/-! ### Pixel buffers and codecs -/

/-- A numpy-style pixel buffer: a shape plus sample data indexed by
multi-index.  The data field plays the role of the underlying buffer of
a numpy view; slicing changes the shape and leaves the buffer alone. -/
structure NDArray where
  shape : List Nat
  data : List Nat → Int

/-- The numpy slice `array[:, :, :3]` applied to a 3-d array: the trailing
channel dimension is cut down to 3; the backing data is shared (a view). -/
def sliceFirst3Channels (a : NDArray) : NDArray :=
  { shape := a.shape.take 2 ++ [3], data := a.data }

/-- The guard `len(array.shape) == 3 and array.shape[2] == 4` of
`array2compressed`. -/
def hasAlphaChannel (a : NDArray) : Bool :=
  match a.shape with
  | [_, _, c] => c == 4
  | _ => false

/-- The alpha-dropping preprocessing step of `array2compressed`
(lines 38-39 of `_utils.py`). -/
def dropAlpha (a : NDArray) : NDArray :=
  if hasAlphaChannel a then sliceFirst3Channels a else a

/-- The external encoder boundary: `array2png` (always returns bytes),
`array2jpg` (returns bytes or `None` on failure), and the optional
JPEG-XL encoder together with the startup feature flag `jpegxl_usable`. -/
structure Codecs where
  jpegxl_usable : Bool
  jpegxl_encode : NDArray → Bool → Nat → Nat → List Nat
  array2png : NDArray → List Nat
  array2jpg : NDArray → Int → Option (List Nat)

/-- `array2compressed_jxl(array, quality)`: JPEG-XL encoding, lossless
when `quality >= 100`, lossy otherwise; effort 1, 4 threads. -/
def array2compressed_jxl (C : Codecs) (array : NDArray) (quality : Int) :
    String × List Nat :=
  if quality ≥ 100 then ("image/jxl", C.jpegxl_encode array true 1 4)
  else ("image/jxl", C.jpegxl_encode array false 1 4)

/-- `array2compressed(array, quality=90)`: drop the alpha channel if
present, then JPEG-XL when available, else PNG for `quality >= 100`,
else JPEG with PNG as fallback when the JPEG encoder returns `None`. -/
def array2compressed (C : Codecs) (array : NDArray) (quality : Int) :
    String × List Nat :=
  let arr := dropAlpha array
  if C.jpegxl_usable then
    array2compressed_jxl C arr quality
  else if quality ≥ 100 then
    ("image/png", C.array2png arr)
  else
    match C.array2jpg arr quality with
    | some result => ("image/jpeg", result)
    | none => ("image/png", C.array2png arr)

/-! ### Concrete sample values used by witnesses -/

/-- A 1x1 RGBA test buffer. -/
def sampleRgba : NDArray := { shape := [1, 1, 4], data := fun _ => 7 }

/-- A codec assembly without JPEG-XL whose JPEG encoder succeeds. -/
def codecsNoJxl : Codecs :=
  { jpegxl_usable := false
    jpegxl_encode := fun _ _ _ _ => [9, 9]
    array2png := fun _ => [1, 2, 3]
    array2jpg := fun _ _ => some [4, 5] }

/-- A codec assembly without JPEG-XL whose JPEG encoder always fails. -/
def codecsNoJxlJpgFails : Codecs :=
  { codecsNoJxl with array2jpg := fun _ _ => none }

/-- A codec assembly with the JPEG-XL encoder available. -/
def codecsJxl : Codecs := { codecsNoJxl with jpegxl_usable := true }

end JupyterRfb

namespace JupyterRfb

/-! ### The output-capture context `RFBOutputContext`

The context manipulates one piece of process-wide state,
`builtins.print`.  Print-function values are modelled by an abstract
type `π` (only their identity matters); exception records by an abstract
type `ε`, with `traceback.format_exception` modelled by an abstract
formatter `fmt : ε → String`.  The instance fields (`capture_print`,
`_prev_print`) and the widget's output buffer live in one state record.
-/

/-- The state visible to an `RFBOutputContext` instance: the process-wide
`builtins.print` slot, the instance's `capture_print` flag and
`_prev_print` save, and the widget's captured stdout/stderr chunks. -/
structure CtxState (π : Type) where
  builtins_print : π
  capture_print : Bool
  prev_print : Option π
  stdout : List String
  stderr : List String

/-- `RFBOutputContext.__enter__`: when `capture_print` is set, save the
current `builtins.print` into `_prev_print` and install this instance's
own print method (`selfPrint`). -/
def ctxEnter (selfPrint : π) (s : CtxState π) : CtxState π :=
  if s.capture_print then
    { s with prev_print := some s.builtins_print, builtins_print := selfPrint }
  else s

/-- `RFBOutputContext.__exit__`: restore `builtins.print` from
`_prev_print` when `capture_print` is set and a save exists, clear the
save; if an exception is being propagated, append its formatted
traceback to stderr and return `true` (the exception is handled). -/
def ctxExit (fmt : ε → String) (s : CtxState π) (exc : Option ε) :
    CtxState π × Bool :=
  let s1 :=
    if s.capture_print ∧ s.prev_print.isSome then
      { s with builtins_print := s.prev_print.getD s.builtins_print,
               prev_print := none }
    else s
  match exc with
  | some e => ({ s1 with stderr := s1.stderr ++ [fmt e] }, true)
  | none => (s1, false)

/-- The text a standard Python `print(*args, sep=sep, end=end)` call
writes to its output stream: the arguments (already converted to
strings) joined by `sep`, followed by `end`.  This is the documented
semantics of the builtin `print`, which `RFBOutputContext.print` invokes
with a fresh `StringIO` as the file. -/
def pythonPrintText (args : List String) (sep endStr : String) : String :=
  String.intercalate sep args ++ endStr

/-- `RFBOutputContext.print(*args, **kwargs)`: pop any caller-supplied
`file` argument, run the original print into a fresh `StringIO` with the
remaining `sep`/`end` keywords, and append the captured text to the
instance's stdout buffer. -/
def ctxPrint (s : CtxState π) (args : List String)
    (sep endStr : Option String) (_file : Option Unit) : CtxState π :=
  let f := ""
  let f := f ++ pythonPrintText args (sep.getD " ") (endStr.getD "\n")
  { s with stdout := s.stdout ++ [f] }

/-- A concrete starting state used by witnesses: capture enabled, the
original print installed, empty buffers. -/
def sampleCtx : CtxState Nat :=
  { builtins_print := 0, capture_print := true, prev_print := none,
    stdout := [], stderr := [] }

end JupyterRfb

namespace JupyterRfb

/-! ### The notebook model pruner `remove_rfb_models_from_nb`

Notebook documents (loaded from JSON) are modelled as trees of `JVal`
values; Python dicts become ordered association lists.  Operations that
Python would fail on (`.items()` or `.get` on a non-dict, indexing or
`in` on unsupported types) are modelled by `Except String`, the error
text naming the Python exception class. -/

/-- A JSON-compatible value as loaded by `json.load`. -/
inductive JVal where
  | null
  | bool (b : Bool)
  | num (n : Int)
  | str (s : String)
  | list (elems : List JVal)
  | obj (fields : List (String × JVal))

/-- The widget-view MIME key the pruner removes. -/
def widgetKey : String := "application/vnd.jupyter.widget-view+json"

/-- The snapshot marker substring looked for in the text/html sibling. -/
def snapshotMarker : String := "<div class='snapshot-"

/-- `d.get(key)` on an association list: first matching value. -/
def lookupField : List (String × JVal) → String → Option JVal
  | [], _ => none
  | (k, v) :: rest, key => if k = key then some v else lookupField rest key

/-- Python truthiness for JSON values. -/
def truthy : JVal → Bool
  | .null => false
  | .bool b => b
  | .num n => n != 0
  | .str s => s != ""
  | .list xs => !xs.isEmpty
  | .obj fs => !fs.isEmpty

/-- Whether `pat` occurs as a contiguous run inside `l`. -/
def charsContain (pat : List Char) : List Char → Bool
  | [] => pat.isEmpty
  | c :: rest => pat.isPrefixOf (c :: rest) || charsContain pat rest

/-- Python's substring test `sub in s`. -/
def strContainsSub (s sub : String) : Bool := charsContain sub.data s.data

/-- Python's `x[0]`: head of a sequence, first character of a string
(as a 1-character string), `KeyError` on a string-keyed dict,
`TypeError` otherwise. -/
def index0 : JVal → Except String JVal
  | .list xs =>
      match xs with
      | x :: _ => .ok x
      | [] => .error "IndexError"
  | .str s =>
      match s.data with
      | c :: _ => .ok (.str (String.mk [c]))
      | [] => .error "IndexError"
  | .obj _ => .error "KeyError"
  | _ => .error "TypeError"

/-- Python's containment test `"<div class='snapshot-" in x`: substring
test on strings, element equality on lists, key membership on dicts,
`TypeError` otherwise. -/
def containsSnapshotMarker : JVal → Except String Bool
  | .str s => .ok (strContainsSub s snapshotMarker)
  | .list xs =>
      .ok (xs.any fun v => match v with
        | .str t => t == snapshotMarker
        | _ => false)
  | .obj fs => .ok (fs.any fun kv => kv.1 == snapshotMarker)
  | _ => .error "TypeError"

/-- The pruner's sibling test on a data mapping `d`:
`html_sibling = d.get("text/html", [])`, then
`html_sibling and "<div class='snapshot-" in html_sibling[0]`. -/
def checkSibling (d : List (String × JVal)) : Except String Bool :=
  let html := (lookupField d "text/html").getD (.list [])
  if truthy html then do
    let x ← index0 html
    containsSnapshotMarker x
  else .ok false

mutual

/-- `remove_rfb_models_from_nb(d)`: walk the mapping's items, recursing
into "cells" elements and "outputs" data mappings, marking the
widget-view key for removal when the snapshot sibling test succeeds, and
finally popping the marked key.  Non-mapping arguments raise
(`.items()` on a non-dict). -/
def pruneVal : JVal → Except String JVal
  | .obj fields => do
      let pr ← processFields fields fields
      if pr.2 then .ok (.obj (pr.1.filter fun kv => kv.1 ≠ widgetKey))
      else .ok (.obj pr.1)
  | _ => .error "AttributeError"

/-- The `for key, val in d.items()` loop of `remove_rfb_models_from_nb`:
first argument is the whole mapping `d` (used by the sibling lookup),
second the items still to visit.  Returns the rewritten items and
whether the widget-view key was marked for removal. -/
def processFields (d : List (String × JVal)) :
    List (String × JVal) → Except String (List (String × JVal) × Bool)
  | [] => .ok ([], false)
  | (k, v) :: rest =>
      if k = "cells" then
        match v with
        | .list xs => do
            let xs2 ← pruneCells xs
            let tail ← processFields d rest
            .ok ((k, JVal.list xs2) :: tail.1, tail.2)
        | _ => do
            let tail ← processFields d rest
            .ok ((k, v) :: tail.1, tail.2)
      else if k = "outputs" then
        match v with
        | .list xs => do
            let xs2 ← pruneOutputs xs
            let tail ← processFields d rest
            .ok ((k, JVal.list xs2) :: tail.1, tail.2)
        | _ => do
            let tail ← processFields d rest
            .ok ((k, v) :: tail.1, tail.2)
      else if k = widgetKey then do
        let cond ← checkSibling d
        let tail ← processFields d rest
        .ok ((k, v) :: tail.1, tail.2 || cond)
      else do
        let tail ← processFields d rest
        .ok ((k, v) :: tail.1, tail.2)

/-- The loop over a "cells" list: recurse into each cell. -/
def pruneCells : List JVal → Except String (List JVal)
  | [] => .ok []
  | v :: t => do
      let v2 ← pruneVal v
      let t2 ← pruneCells t
      .ok (v2 :: t2)

/-- The loop over an "outputs" list: fetch each output's "data". -/
def pruneOutputs : List JVal → Except String (List JVal)
  | [] => .ok []
  | v :: t => do
      let v2 ← pruneOutput v
      let t2 ← pruneOutputs t
      .ok (v2 :: t2)

/-- One output: `data = v.get("data", None)`; when truthy, recurse into
it (in place).  Non-mapping outputs raise (`.get` on a non-dict). -/
def pruneOutput : JVal → Except String JVal
  | .obj fields => do
      let fields2 ← pruneOutputData fields
      .ok (.obj fields2)
  | _ => .error "AttributeError"

/-- Replace the (first) "data" entry of an output mapping by its pruned
form when truthy; leave everything else alone. -/
def pruneOutputData :
    List (String × JVal) → Except String (List (String × JVal))
  | [] => .ok []
  | (k, v) :: rest =>
      if k = "data" then
        if truthy v then do
          let v2 ← pruneVal v
          .ok ((k, v2) :: rest)
        else .ok ((k, v) :: rest)
      else do
        let rest2 ← pruneOutputData rest
        .ok ((k, v) :: rest2)

end

/-- The module's entry point `remove_rfb_models_from_nb`. -/
def remove_rfb_models_from_nb : JVal → Except String JVal := pruneVal

/-- Whether an association list carries a given key. -/
def containsKey (l : List (String × JVal)) (key : String) : Bool :=
  (l.map Prod.fst).contains key

/-- What one pass of the item loop guarantees: keys preserved in order,
entries outside "cells"/"outputs" untouched, the removal mark set exactly
when the widget-view key is present and the sibling test succeeded, and
non-list "cells"/"outputs" values left alone. -/
abbrev FieldsSpec (d l : List (String × JVal))
    (res : List (String × JVal) × Bool) : Prop :=
  (res.1.map Prod.fst = l.map Prod.fst) ∧
  (∀ key : String, key ≠ "cells" → key ≠ "outputs" →
    lookupField res.1 key = lookupField l key) ∧
  (∀ b : Bool, checkSibling d = Except.ok b →
    res.2 = (containsKey l widgetKey && b)) ∧
  (containsKey l widgetKey = false → res.2 = false) ∧
  (∀ key val, (key = "cells" ∨ key = "outputs") →
    lookupField l key = some val → (∀ xs, val ≠ JVal.list xs) →
    lookupField res.1 key = some val)

/-- The claim-side condition under which the widget-view key is removed:
the data mapping has a "text/html" entry that is non-empty and whose
first element contains the snapshot marker substring. -/
def snapshotCond (fields : List (String × JVal)) : Bool :=
  match lookupField fields "text/html" with
  | some (JVal.list (JVal.str s :: _)) => strContainsSub s snapshotMarker
  | _ => false

/-- The "text/html" entry, when present, is a list of strings — the shape
the notebook format gives it. -/
def htmlWellTypedB (fields : List (String × JVal)) : Bool :=
  match lookupField fields "text/html" with
  | none => true
  | some (JVal.list xs) =>
      xs.all fun x => match x with
        | JVal.str _ => true
        | _ => false
  | some _ => false

/-- The spec's running example: a marked text/html snapshot output. -/
def snapshotHtml : JVal :=
  JVal.list [JVal.str "<div class='snapshot-foo'>...</div>"]

/-- A data mapping holding both the widget-view key and the marked
snapshot sibling. -/
def exampleData : List (String × JVal) :=
  [(widgetKey, JVal.obj [("model_id", JVal.str "abc")]),
   ("text/html", snapshotHtml)]


end JupyterRfb

namespace JupyterRfb

/-! ### Claims C1, C2, C3, C10: the image compressor -/

/-- C1: for every pixel buffer and every quality >= 100, when the JPEG-XL
encoder is unavailable, `array2compressed` returns the mimetype
"image/png" paired with the PNG encoder's output for the (alpha-dropped)
buffer. -/
theorem array2compressed_png_when_quality_ge_100 (C : Codecs) (a : NDArray)
    (q : Int) (hjxl : C.jpegxl_usable = false) (hq : q ≥ 100) :
    array2compressed C a q = ("image/png", C.array2png (dropAlpha a)) := by
  simp [array2compressed, hjxl, hq]

theorem array2compressed_png_when_quality_ge_100_witness :
    codecsNoJxl.jpegxl_usable = false ∧ (100 : Int) ≥ 100 ∧
      array2compressed codecsNoJxl sampleRgba 100 = ("image/png", [1, 2, 3]) :=
  ⟨rfl, by norm_num,
    array2compressed_png_when_quality_ge_100 codecsNoJxl sampleRgba 100 rfl
      (by norm_num)⟩

/-- C2: for every pixel buffer and every quality < 100, when the JPEG-XL
encoder is unavailable, `array2compressed` attempts JPEG encoding and
returns mimetype "image/jpeg" with the JPEG encoder's output; if the
JPEG encoder returns `None`, it instead returns mimetype "image/png"
with the PNG encoder's output. -/
theorem array2compressed_jpeg_with_png_fallback (C : Codecs) (a : NDArray)
    (q : Int) (hjxl : C.jpegxl_usable = false) (hq : q < 100) :
    (∀ b, C.array2jpg (dropAlpha a) q = some b →
        array2compressed C a q = ("image/jpeg", b)) ∧
      (C.array2jpg (dropAlpha a) q = none →
        array2compressed C a q = ("image/png", C.array2png (dropAlpha a))) := by
  constructor
  · intro b hb
    simp [array2compressed, hjxl, not_le.mpr hq, hb]
  · intro hnone
    simp [array2compressed, hjxl, not_le.mpr hq, hnone]

theorem array2compressed_jpeg_with_png_fallback_witness :
    codecsNoJxl.jpegxl_usable = false ∧ (50 : Int) < 100 ∧
      codecsNoJxl.array2jpg (dropAlpha sampleRgba) 50 = some [4, 5] ∧
      array2compressed codecsNoJxl sampleRgba 50 = ("image/jpeg", [4, 5]) ∧
      codecsNoJxlJpgFails.array2jpg (dropAlpha sampleRgba) 50 = none ∧
      array2compressed codecsNoJxlJpgFails sampleRgba 50 =
        ("image/png", codecsNoJxlJpgFails.array2png (dropAlpha sampleRgba)) :=
  ⟨rfl, by norm_num, rfl,
    (array2compressed_jpeg_with_png_fallback codecsNoJxl sampleRgba 50 rfl
        (by norm_num)).1 [4, 5] rfl,
    rfl,
    (array2compressed_jpeg_with_png_fallback codecsNoJxlJpgFails sampleRgba 50
        rfl (by norm_num)).2 rfl⟩

/-- C3: for every 3-dimensional pixel buffer whose last dimension has
size 4 and every quality, compressing the buffer gives exactly the same
(mimetype, bytes) pair as compressing the buffer with its channel
dimension already sliced down to the first 3 channels. -/
theorem array2compressed_drops_alpha (C : Codecs) (a : NDArray) (q : Int)
    (h w : Nat) (hshape : a.shape = [h, w, 4]) :
    array2compressed C a q = array2compressed C (sliceFirst3Channels a) q := by
  have halpha : hasAlphaChannel a = true := by
    simp [hasAlphaChannel, hshape]
  have hslice : hasAlphaChannel (sliceFirst3Channels a) = false := by
    simp [hasAlphaChannel, sliceFirst3Channels, hshape]
  unfold array2compressed
  rw [show dropAlpha a = sliceFirst3Channels a by simp [dropAlpha, halpha],
    show dropAlpha (sliceFirst3Channels a) = sliceFirst3Channels a by
      simp [dropAlpha, hslice]]

theorem array2compressed_drops_alpha_witness :
    sampleRgba.shape = [1, 1, 4] ∧
      array2compressed codecsNoJxl sampleRgba 100 =
        array2compressed codecsNoJxl (sliceFirst3Channels sampleRgba) 100 :=
  ⟨rfl, array2compressed_drops_alpha codecsNoJxl sampleRgba 100 1 1 rfl⟩

/-- C10: if the JPEG-XL encoder is available, then for every pixel buffer
and every quality, `array2compressed` returns mimetype "image/jxl" with
the JPEG-XL encoding of the (alpha-dropped) buffer — lossless exactly
when quality >= 100 — and its result never depends on the PNG or JPEG
encoders. -/
theorem array2compressed_jxl_preferred (C : Codecs) (a : NDArray) (q : Int)
    (hjxl : C.jpegxl_usable = true) :
    array2compressed C a q =
        ("image/jxl", C.jpegxl_encode (dropAlpha a) (decide (q ≥ 100)) 1 4) ∧
      ∀ png' jpg',
        array2compressed { C with array2png := png', array2jpg := jpg' } a q =
          array2compressed C a q := by
  refine ⟨?_, ?_⟩
  · by_cases hq : q ≥ 100 <;>
      simp [array2compressed, array2compressed_jxl, hjxl, hq]
  · intro png' jpg'
    by_cases hq : q ≥ 100 <;>
      simp [array2compressed, array2compressed_jxl, hjxl, hq]

theorem array2compressed_jxl_preferred_witness :
    codecsJxl.jpegxl_usable = true ∧
      array2compressed codecsJxl sampleRgba 42 =
        ("image/jxl",
          codecsJxl.jpegxl_encode (dropAlpha sampleRgba) false 1 4) :=
  ⟨rfl, by
    have h := (array2compressed_jxl_preferred codecsJxl sampleRgba 42 rfl).1
    simpa using h⟩

end JupyterRfb

namespace JupyterRfb

/-! ### Claims C4, C5, C6: the output-capture context -/

/-- C4: for every instance whose `capture_print` flag is set at scope
entry, entry installs the instance's print method as the process-wide
print function after saving the previous one, and scope exit restores
the process-wide print function to its pre-entry identity and clears the
save — for any buffer contents, any installed print function and any
exception state reached inside the scope (only the instance's own
bookkeeping fields are untouched by the scope body). -/
theorem ctxEnter_ctxExit_print_swap (fmt : ε → String) (p : π)
    (s : CtxState π) (hcap : s.capture_print = true) :
    (ctxEnter p s).builtins_print = p ∧
      (ctxEnter p s).prev_print = some s.builtins_print ∧
      ∀ (s2 : CtxState π) (exc : Option ε), s2.capture_print = true →
        s2.prev_print = (ctxEnter p s).prev_print →
        (ctxExit fmt s2 exc).1.builtins_print = s.builtins_print ∧
          (ctxExit fmt s2 exc).1.prev_print = none := by
  refine ⟨by simp [ctxEnter, hcap], by simp [ctxEnter, hcap], ?_⟩
  intro s2 exc hcap2 hprev
  have hprev' : s2.prev_print = some s.builtins_print := by
    simpa [ctxEnter, hcap] using hprev
  cases exc <;> simp [ctxExit, hcap2, hprev']

theorem ctxEnter_ctxExit_print_swap_witness :
    sampleCtx.capture_print = true ∧
      (ctxEnter 5 sampleCtx).builtins_print = 5 ∧
      (ctxExit (fun _ : Unit => "tb")
            { builtins_print := 9, capture_print := true,
              prev_print := (ctxEnter 5 sampleCtx).prev_print,
              stdout := ["x"], stderr := [] }
            (some ())).1.builtins_print = sampleCtx.builtins_print := by
  have h := ctxEnter_ctxExit_print_swap (fun _ : Unit => "tb") 5 sampleCtx rfl
  exact ⟨rfl, h.1,
    (h.2.2 { builtins_print := 9, capture_print := true,
             prev_print := (ctxEnter 5 sampleCtx).prev_print,
             stdout := ["x"], stderr := [] } (some ()) rfl rfl).1⟩

/-- C5: for every exception record propagated to scope exit, `__exit__`
appends the exception's formatted traceback to the instance's stderr
buffer and returns `true`, declaring the exception handled so that it
does not propagate past the scope boundary. -/
theorem ctxExit_captures_exception (fmt : ε → String) (s : CtxState π)
    (e : ε) :
    (ctxExit fmt s (some e)).1.stderr = s.stderr ++ [fmt e] ∧
      (ctxExit fmt s (some e)).2 = true := by
  by_cases h : s.capture_print ∧ s.prev_print.isSome <;> simp [ctxExit, h]

/-- C6: `RFBOutputContext.print` appends to the instance's stdout buffer
exactly the text a standard print call would produce from its arguments
with the given `sep`/`end` (defaulting to a single space and a newline),
ignoring any caller-supplied `file` argument; in particular
`print("a", "b")` appends exactly "a b\n". -/
theorem ctxPrint_appends_standard_print_text (s : CtxState π)
    (args : List String) (sep endStr : Option String) (file : Option Unit) :
    ctxPrint s args sep endStr file =
        { s with stdout := s.stdout ++
            [pythonPrintText args (sep.getD " ") (endStr.getD "\n")] } ∧
      pythonPrintText ["a", "b"] " " "\n" = "a b\n" :=
  ⟨by simp [ctxPrint], rfl⟩

end JupyterRfb

namespace JupyterRfb

/-! ### Claims C7, C8: the notebook pruner -/

theorem except_ok_bind {ε α β : Type} (a : α) (f : α → Except ε β) :
    (Except.ok a : Except ε α) >>= f = f a := rfl

theorem except_error_bind {ε α β : Type} (e : ε) (f : α → Except ε β) :
    (Except.error e : Except ε α) >>= f = Except.error e := rfl

theorem lookupField_cons_self (k : String) (v : JVal)
    (rest : List (String × JVal)) :
    lookupField ((k, v) :: rest) k = some v := by
  simp [lookupField]

theorem lookupField_cons_ne {k key : String} (v : JVal)
    (rest : List (String × JVal)) (hne : k ≠ key) :
    lookupField ((k, v) :: rest) key = lookupField rest key := by
  simp [lookupField, hne]

theorem fieldsSpec_step {d tl tail1 : List (String × JVal)} {k : String}
    {v vNew : JVal} {rmTail extra rm : Bool}
    (ih : FieldsSpec d tl (tail1, rmTail))
    (hrm : rm = (rmTail || extra))
    (hKeep : k ≠ "cells" → k ≠ "outputs" → vNew = v)
    (hKeepNL : (∀ xs, v ≠ JVal.list xs) → vNew = v)
    (hWid : k = widgetKey → ∀ b, checkSibling d = Except.ok b → extra = b)
    (hNotWid : k ≠ widgetKey → extra = false) :
    FieldsSpec d ((k, v) :: tl) ((k, vNew) :: tail1, rm) := by
  obtain ⟨ihKeys, ihLook, ihRm, ihRmF, ihPres⟩ := ih
  dsimp only at ihKeys ihLook ihRm ihRmF ihPres
  refine ⟨?_, ?_, ?_, ?_, ?_⟩ <;> dsimp only
  · simp [ihKeys]
  · intro key hkc hko
    by_cases hkk : k = key
    · subst hkk
      rw [lookupField_cons_self, lookupField_cons_self, hKeep hkc hko]
    · rw [lookupField_cons_ne _ _ hkk, lookupField_cons_ne _ _ hkk]
      exact ihLook key hkc hko
  · intro b hb
    subst hrm
    by_cases hkw : k = widgetKey
    · subst hkw
      rw [hWid rfl b hb, ihRm b hb]
      simp only [containsKey, List.map_cons, List.contains_cons,
        beq_self_eq_true, Bool.true_or, Bool.true_and]
      cases b <;> simp
    · rw [hNotWid hkw, ihRm b hb]
      have hbeq : (widgetKey == k) = false := by
        simpa using Ne.symm hkw
      simp [containsKey, List.contains_cons, hbeq]
  · intro hfalse
    subst hrm
    simp only [containsKey, List.map_cons, List.contains_cons,
      Bool.or_eq_false_iff] at hfalse
    obtain ⟨h1, h2⟩ := hfalse
    have hkw : k ≠ widgetKey := by
      intro hh
      subst hh
      simp at h1
    rw [ihRmF h2, hNotWid hkw]
    rfl
  · intro key val hsp hlk hnl
    by_cases hkk : k = key
    · subst hkk
      rw [lookupField_cons_self] at hlk
      rw [lookupField_cons_self]
      injection hlk with hv
      subst hv
      rw [hKeepNL hnl]
    · rw [lookupField_cons_ne _ _ hkk] at hlk
      rw [lookupField_cons_ne _ _ hkk]
      exact ihPres key val hsp hlk hnl

theorem fieldsSpec_keep {d tl : List (String × JVal)} {k : String}
    {v : JVal} {res : List (String × JVal) × Bool}
    (ih : ∀ res', processFields d tl = Except.ok res' → FieldsSpec d tl res')
    (hkw : k ≠ widgetKey)
    (h : (do
        let tail ← processFields d tl
        Except.ok ((k, v) :: tail.1, tail.2)) = Except.ok res) :
    FieldsSpec d ((k, v) :: tl) res := by
  cases htl : processFields d tl with
  | error e => rw [htl, except_error_bind] at h; exact Except.noConfusion h
  | ok tailres =>
    rw [htl, except_ok_bind] at h
    injection h with h2
    subst h2
    exact fieldsSpec_step (ih tailres htl) (by simp)
      (fun _ _ => rfl) (fun _ => rfl)
      (fun hw => absurd hw hkw) (fun _ => rfl)

theorem processFields_spec (d : List (String × JVal)) :
    ∀ (l : List (String × JVal)) (res : List (String × JVal) × Bool),
      processFields d l = Except.ok res → FieldsSpec d l res := by
  intro l
  induction l with
  | nil =>
    intro res h
    simp only [processFields] at h
    injection h with h2
    subst h2
    refine ⟨rfl, fun _ _ _ => rfl, fun b _ => rfl, fun _ => rfl, ?_⟩
    intro key val _ hlk _
    simp [lookupField] at hlk
  | cons hd tl ih =>
    obtain ⟨k, v⟩ := hd
    intro res h
    cases v
    case list xs =>
      simp only [processFields] at h
      by_cases hk1 : k = "cells"
      · subst hk1
        rw [if_pos rfl] at h
        cases hxs : pruneCells xs with
        | error e => rw [hxs, except_error_bind] at h; exact Except.noConfusion h
        | ok xs2 =>
          rw [hxs, except_ok_bind] at h
          cases htl : processFields d tl with
          | error e => rw [htl, except_error_bind] at h; exact Except.noConfusion h
          | ok tailres =>
            rw [htl, except_ok_bind] at h
            injection h with h2
            subst h2
            exact fieldsSpec_step (ih tailres htl) (by simp)
              (fun hc _ => absurd rfl hc)
              (fun hnl => absurd rfl (hnl xs))
              (fun hw _ _ => absurd hw (by decide))
              (fun _ => rfl)
      · rw [if_neg hk1] at h
        by_cases hk2 : k = "outputs"
        · subst hk2
          rw [if_pos rfl] at h
          cases hxs : pruneOutputs xs with
          | error e => rw [hxs, except_error_bind] at h; exact Except.noConfusion h
          | ok xs2 =>
            rw [hxs, except_ok_bind] at h
            cases htl : processFields d tl with
            | error e =>
              rw [htl, except_error_bind] at h; exact Except.noConfusion h
            | ok tailres =>
              rw [htl, except_ok_bind] at h
              injection h with h2
              subst h2
              exact fieldsSpec_step (ih tailres htl) (by simp)
                (fun _ ho => absurd rfl ho)
                (fun hnl => absurd rfl (hnl xs))
                (fun hw _ _ => absurd hw (by decide))
                (fun _ => rfl)
        · rw [if_neg hk2] at h
          by_cases hkw : k = widgetKey
          · subst hkw
            rw [if_pos rfl] at h
            cases hcs : checkSibling d with
            | error e =>
              rw [hcs, except_error_bind] at h; exact Except.noConfusion h
            | ok b0 =>
              rw [hcs, except_ok_bind] at h
              cases htl : processFields d tl with
              | error e =>
                rw [htl, except_error_bind] at h; exact Except.noConfusion h
              | ok tailres =>
                rw [htl, except_ok_bind] at h
                injection h with h2
                subst h2
                exact fieldsSpec_step (ih tailres htl) rfl
                  (fun _ _ => rfl) (fun _ => rfl)
                  (fun _ b hb => by
                    rw [hcs] at hb
                    exact Except.ok.inj hb)
                  (fun hnw => absurd rfl hnw)
          · rw [if_neg hkw] at h
            exact fieldsSpec_keep ih hkw h
    all_goals (
      simp only [processFields] at h
      by_cases hkw : k = widgetKey
      · subst hkw
        rw [if_neg (by decide), if_neg (by decide), if_pos rfl] at h
        cases hcs : checkSibling d with
        | error e => rw [hcs, except_error_bind] at h; exact Except.noConfusion h
        | ok b0 =>
          rw [hcs, except_ok_bind] at h
          cases htl : processFields d tl with
          | error e =>
            rw [htl, except_error_bind] at h; exact Except.noConfusion h
          | ok tailres =>
            rw [htl, except_ok_bind] at h
            injection h with h2
            subst h2
            exact fieldsSpec_step (ih tailres htl) rfl
              (fun _ _ => rfl) (fun _ => rfl)
              (fun _ b hb => by
                rw [hcs] at hb
                exact Except.ok.inj hb)
              (fun hnw => absurd rfl hnw)
      · by_cases h1 : k = "cells"
        · rw [if_pos h1] at h
          exact fieldsSpec_keep ih hkw h
        · rw [if_neg h1] at h
          by_cases hsnd : k = "outputs"
          · rw [if_pos hsnd] at h
            exact fieldsSpec_keep ih hkw h
          · rw [if_neg hsnd, if_neg hkw] at h
            exact fieldsSpec_keep ih hkw h)

theorem checkSibling_of_wellTyped (fields : List (String × JVal))
    (hwt : htmlWellTypedB fields = true) :
    checkSibling fields = Except.ok (snapshotCond fields) := by
  unfold htmlWellTypedB at hwt
  unfold checkSibling snapshotCond
  cases hlk : lookupField fields "text/html" with
  | none => rfl
  | some v =>
    rw [hlk] at hwt
    cases v with
    | list xs =>
      cases xs with
      | nil => rfl
      | cons x t =>
        simp only [List.all_cons, Bool.and_eq_true] at hwt
        obtain ⟨hx, _⟩ := hwt
        cases x with
        | str s => rfl
        | null => simp at hx
        | bool b => simp at hx
        | num n => simp at hx
        | list l2 => simp at hx
        | obj fs => simp at hx
    | null => simp at hwt
    | bool b => simp at hwt
    | num n => simp at hwt
    | str s => simp at hwt
    | obj fs => simp at hwt

theorem lookupField_filter_widget (l : List (String × JVal)) (key : String)
    (hne : key ≠ widgetKey) :
    lookupField (l.filter fun kv => kv.1 ≠ widgetKey) key = lookupField l key := by
  induction l with
  | nil => rfl
  | cons hd tl ih =>
    obtain ⟨k, v⟩ := hd
    by_cases hk : k = widgetKey
    · subst hk
      rw [List.filter_cons_of_neg (by simp), ih,
        lookupField_cons_ne _ _ (Ne.symm hne)]
    · rw [List.filter_cons_of_pos (by simp [hk])]
      by_cases hkk : k = key
      · subst hkk
        rw [lookupField_cons_self, lookupField_cons_self]
      · rw [lookupField_cons_ne _ _ hkk, lookupField_cons_ne _ _ hkk, ih]

theorem containsKey_filter_widget (l : List (String × JVal)) :
    containsKey (l.filter fun kv => kv.1 ≠ widgetKey) widgetKey = false := by
  induction l with
  | nil => rfl
  | cons hd tl ih =>
    obtain ⟨k, v⟩ := hd
    by_cases hk : k = widgetKey
    · subst hk
      rw [List.filter_cons_of_neg (by simp)]
      exact ih
    · rw [List.filter_cons_of_pos (by simp [hk])]
      have hbeq : (widgetKey == k) = false := by simpa using Ne.symm hk
      unfold containsKey
      rw [List.map_cons, List.contains_cons, hbeq, Bool.false_or]
      exact ih

theorem keys_filter_congr {l2 l : List (String × JVal)}
    (h : l2.map Prod.fst = l.map Prod.fst) :
    (l2.filter fun kv => kv.1 ≠ widgetKey).map Prod.fst =
      (l.filter fun kv => kv.1 ≠ widgetKey).map Prod.fst := by
  induction l2 generalizing l with
  | nil =>
    cases l with
    | nil => rfl
    | cons hd tl => simp at h
  | cons hd tl ih =>
    cases l with
    | nil => simp at h
    | cons hd2 tl2 =>
      obtain ⟨k, v⟩ := hd
      obtain ⟨k2, v2⟩ := hd2
      simp only [List.map_cons, List.cons.injEq] at h
      obtain ⟨hk, htl⟩ := h
      subst hk
      by_cases hkw : k = widgetKey
      · rw [List.filter_cons_of_neg (by simp [hkw]),
          List.filter_cons_of_neg (by simp [hkw])]
        exact ih htl
      · rw [List.filter_cons_of_pos (by simp [hkw]),
          List.filter_cons_of_pos (by simp [hkw])]
        simpa using ih htl

theorem processFields_id (d : List (String × JVal)) :
    ∀ l : List (String × JVal),
      (∀ kv ∈ l, kv.1 ≠ "cells" ∧ kv.1 ≠ "outputs" ∧ kv.1 ≠ widgetKey) →
      processFields d l = Except.ok (l, false) := by
  intro l
  induction l with
  | nil => intro _; simp [processFields]
  | cons hd tl ih =>
    intro hno
    obtain ⟨k, v⟩ := hd
    obtain ⟨hkc, hko, hkw⟩ := hno (k, v) (by simp)
    have htl := ih fun kv hkv => hno kv (by simp [hkv])
    cases v <;>
      (simp only [processFields]
       rw [if_neg hkc, if_neg hko, if_neg hkw, htl, except_ok_bind])

/-- C7: for every data mapping the pruner processes (its "text/html"
entry, if any, being a list of strings as the notebook format
prescribes), the widget-view key is present after pruning exactly when
it was present before and the sibling condition — a non-empty
"text/html" entry whose first element contains the snapshot marker —
fails; the "text/html" entry itself is left in place. -/
theorem pruneVal_removes_widget_iff (fields fields2 : List (String × JVal))
    (hok : pruneVal (JVal.obj fields) = Except.ok (JVal.obj fields2))
    (hwt : htmlWellTypedB fields = true) :
    containsKey fields2 widgetKey =
        (containsKey fields widgetKey && !(snapshotCond fields)) ∧
      lookupField fields2 "text/html" = lookupField fields "text/html" := by
  simp only [pruneVal] at hok
  cases hpf : processFields fields fields with
  | error e => rw [hpf, except_error_bind] at hok; exact Except.noConfusion hok
  | ok pr =>
    rw [hpf, except_ok_bind] at hok
    obtain ⟨hKeys, hLook, hRm, hRmF, hPres⟩ :=
      processFields_spec fields fields pr hpf
    have hcs := checkSibling_of_wellTyped fields hwt
    have hrm := hRm _ hcs
    by_cases h2 : pr.2 = true
    · rw [if_pos h2] at hok
      injection hok with h3
      injection h3 with h4
      subst h4
      have hand : (containsKey fields widgetKey && snapshotCond fields) = true := by
        rw [← hrm]; exact h2
      obtain ⟨hck, hcond⟩ := Bool.and_eq_true_iff.mp hand
      constructor
      · rw [containsKey_filter_widget, hck, hcond]
        rfl
      · rw [lookupField_filter_widget _ _ (by decide)]
        exact hLook "text/html" (by decide) (by decide)
    · have h2f : pr.2 = false := by
        cases hb : pr.2
        · rfl
        · exact absurd hb h2
      rw [if_neg h2] at hok
      injection hok with h3
      injection h3 with h4
      subst h4
      rw [hrm] at h2f
      have hckeq : containsKey pr.1 widgetKey = containsKey fields widgetKey := by
        unfold containsKey
        rw [hKeys]
      constructor
      · rw [hckeq]
        cases hcd : snapshotCond fields
        · simp
        · rw [hcd] at h2f
          simp only [Bool.and_true] at h2f
          simp [h2f]
      · exact hLook "text/html" (by decide) (by decide)

theorem pruneVal_removes_widget_iff_witness :
    pruneVal (JVal.obj exampleData) =
        Except.ok (JVal.obj [("text/html", snapshotHtml)]) ∧
      htmlWellTypedB exampleData = true ∧
      containsKey [("text/html", snapshotHtml)] widgetKey =
        (containsKey exampleData widgetKey && !(snapshotCond exampleData)) ∧
      lookupField [("text/html", snapshotHtml)] "text/html" =
        lookupField exampleData "text/html" := by
  have hok : pruneVal (JVal.obj exampleData) =
      Except.ok (JVal.obj [("text/html", snapshotHtml)]) := by
    simp only [exampleData, snapshotHtml, pruneVal, processFields]
    rfl
  have h := pruneVal_removes_widget_iff exampleData
    [("text/html", snapshotHtml)] hok (by rfl)
  exact ⟨hok, rfl, h.1, h.2⟩

/-- C8 counterexample: the claim says the pruner never raises, but on a
document whose "cells" sequence contains a non-mapping element the code
calls `.items()` on that element and raises AttributeError. -/
theorem prune_raises_on_nonmapping_cell :
    remove_rfb_models_from_nb (JVal.obj [("cells", JVal.list [JVal.num 5])]) =
      Except.error "AttributeError" := by
  simp only [remove_rfb_models_from_nb, pruneVal, processFields, pruneCells]
  rfl

/-- C8 (amended): whenever the pruner completes, it removes no key other
than the widget-view key, preserves key order, leaves the value of every
entry outside "cells"/"outputs" unchanged, and keeps non-sequence
"cells"/"outputs" values intact; a mapping with none of the recognised
keys is returned unchanged (absent keys mean nothing to do).  However,
a non-mapping element inside a "cells"/"outputs" sequence makes the
pruner raise, so "never raising" does not hold for every input. -/
theorem prune_frame_and_robustness :
    (∀ fields fields2 : List (String × JVal),
      pruneVal (JVal.obj fields) = Except.ok (JVal.obj fields2) →
      (fields2.map Prod.fst = fields.map Prod.fst ∨
        fields2.map Prod.fst =
          (fields.filter fun kv => kv.1 ≠ widgetKey).map Prod.fst) ∧
      (∀ key, key ≠ "cells" → key ≠ "outputs" → key ≠ widgetKey →
        lookupField fields2 key = lookupField fields key) ∧
      (∀ key val, (key = "cells" ∨ key = "outputs") →
        lookupField fields key = some val → (∀ xs, val ≠ JVal.list xs) →
        lookupField fields2 key = some val)) ∧
    (∀ fields : List (String × JVal),
      (∀ kv ∈ fields, kv.1 ≠ "cells" ∧ kv.1 ≠ "outputs" ∧ kv.1 ≠ widgetKey) →
      pruneVal (JVal.obj fields) = Except.ok (JVal.obj fields)) := by
  constructor
  · intro fields fields2 hok
    simp only [pruneVal] at hok
    cases hpf : processFields fields fields with
    | error e => rw [hpf, except_error_bind] at hok; exact Except.noConfusion hok
    | ok pr =>
      rw [hpf, except_ok_bind] at hok
      obtain ⟨hKeys, hLook, hRm, hRmF, hPres⟩ :=
        processFields_spec fields fields pr hpf
      by_cases h2 : pr.2 = true
      · rw [if_pos h2] at hok
        injection hok with h3
        injection h3 with h4
        subst h4
        refine ⟨Or.inr (keys_filter_congr hKeys), ?_, ?_⟩
        · intro key hkc hko hkw
          rw [lookupField_filter_widget _ _ hkw]
          exact hLook key hkc hko
        · intro key val hsp hlk hnl
          have hkw : key ≠ widgetKey := by
            rcases hsp with rfl | rfl <;> decide
          rw [lookupField_filter_widget _ _ hkw]
          exact hPres key val hsp hlk hnl
      · rw [if_neg h2] at hok
        injection hok with h3
        injection h3 with h4
        subst h4
        exact ⟨Or.inl hKeys, fun key hkc hko _ => hLook key hkc hko, hPres⟩
  · intro fields hno
    simp only [pruneVal]
    rw [processFields_id fields fields hno, except_ok_bind]
    rfl

theorem prune_frame_and_robustness_witness :
    (pruneVal (JVal.obj exampleData) =
        Except.ok (JVal.obj [("text/html", snapshotHtml)]) ∧
      lookupField [("text/html", snapshotHtml)] "text/html" =
        lookupField exampleData "text/html") ∧
      pruneVal (JVal.obj [("other", JVal.num 1)]) =
        Except.ok (JVal.obj [("other", JVal.num 1)]) := by
  have hok : pruneVal (JVal.obj exampleData) =
      Except.ok (JVal.obj [("text/html", snapshotHtml)]) := by
    simp only [exampleData, snapshotHtml, pruneVal, processFields]
    rfl
  refine ⟨⟨hok, ?_⟩, ?_⟩
  · exact (prune_frame_and_robustness.1 exampleData _ hok).2.1 "text/html"
      (by decide) (by decide) (by decide)
  · refine prune_frame_and_robustness.2 [("other", JVal.num 1)] ?_
    intro kv hkv
    rw [List.mem_singleton] at hkv
    subst hkv
    exact ⟨by decide, by decide, by decide⟩

end JupyterRfb

namespace JupyterRfb

/-! ### The `Snapshot` HTML renderer

`Snapshot._repr_html_` PNG-encodes the buffer, base64-armours it with
`base64.encodebytes` (76-character lines, each ending in a newline),
interpolates an HTML template, and post-processes the template with
`.replace("\n", "").replace("    ", "").strip()`.  The stdlib pieces
(`encodebytes`, `str.replace`, `str.strip`, `str(int)`) are modelled
below from their documented semantics. -/

/-- The base64 alphabet. -/
def b64Table : List Char :=
  "ABCDEFGHIJKLMNOPQRSTUVWXYZabcdefghijklmnopqrstuvwxyz0123456789+/".data

/-- The base64 digit for a 6-bit value. -/
def b64char (n : Nat) : Char := b64Table.getD n 'A'

/-- Base64 of one input group of at most 3 bytes, '=' padded. -/
def b64Encode3 : List Nat → List Char
  | [] => []
  | [b1] => [b64char (b1 / 4), b64char (b1 % 4 * 16), '=', '=']
  | [b1, b2] =>
      [b64char (b1 / 4), b64char (b1 % 4 * 16 + b2 / 16),
       b64char (b2 % 16 * 4), '=']
  | b1 :: b2 :: b3 :: _ =>
      [b64char (b1 / 4), b64char (b1 % 4 * 16 + b2 / 16),
       b64char (b2 % 16 * 4 + b3 / 64), b64char (b3 % 64)]

/-- Base64 of a byte sequence, 3 bytes at a time. -/
def b64Chunks : List Nat → List Char
  | [] => []
  | [b1] => b64Encode3 [b1]
  | [b1, b2] => b64Encode3 [b1, b2]
  | b1 :: b2 :: b3 :: rest => b64Encode3 [b1, b2, b3] ++ b64Chunks rest

/-- Split a byte sequence into the 57-byte groups `base64.encodebytes`
lines up (57 input bytes make one 76-character output line); the first
argument is the remaining capacity of the group being accumulated. -/
def groupsAux : Nat → List Nat → List Nat → List (List Nat)
  | _, acc, [] => if acc.isEmpty then [] else [acc.reverse]
  | 0, acc, b :: rest => acc.reverse :: groupsAux 56 [b] rest
  | k + 1, acc, b :: rest => groupsAux k (b :: acc) rest

/-- `base64.encodebytes`: each 57-byte group becomes one base64 line
terminated by a newline; empty input gives empty output. -/
def encodebytesChars (bs : List Nat) : List Char :=
  ((groupsAux 57 [] bs).map fun g => b64Chunks g ++ ['\n']).flatten

/-- `str.replace(pat, repl)` scanning left to right over non-overlapping
occurrences; the `Nat` argument is recursion fuel, always called with
the length of the remaining text (each step consumes at least one
character, so the fuel never runs out). -/
def replaceAux (pat repl : List Char) : Nat → List Char → List Char
  | _, [] => []
  | 0, l => l
  | Nat.succ fuel, c :: rest =>
      if pat ≠ [] ∧ pat.isPrefixOf (c :: rest) then
        repl ++ replaceAux pat repl fuel (List.drop (pat.length - 1) rest)
      else c :: replaceAux pat repl fuel rest

/-- Python's `s.replace(pat, repl)`. -/
def pyReplace (s pat repl : String) : String :=
  String.mk (replaceAux pat.data repl.data s.data.length s.data)

/-- Python's `s.strip()`: drop leading and trailing whitespace. -/
def stripChars (l : List Char) : List Char :=
  ((l.dropWhile Char.isWhitespace).reverse.dropWhile Char.isWhitespace).reverse

/-- Python's `s.strip()` on strings. -/
def pyStrip (s : String) : String := String.mk (stripChars s.data)

/-- Decimal digit character. -/
def digitChar (n : Nat) : Char := "0123456789".data.getD n '0'

/-- Decimal digits of a natural number, with recursion fuel (any fuel
at least the number of digits gives the exact decimal form). -/
def natDigitsAux : Nat → Nat → List Char
  | 0, _ => []
  | Nat.succ fuel, n =>
      if n < 10 then [digitChar n]
      else natDigitsAux fuel (n / 10) ++ [digitChar (n % 10)]

/-- Python's `str(n)` for a natural number. -/
def natStr (n : Nat) : String := String.mk (natDigitsAux (n + 1) n)

/-- The `Snapshot` display object: the pixel buffer plus display
metadata.  `class_name = ""` plays the part of Python's `None` (both are
falsy in the template test). -/
structure Snapshot where
  data : NDArray
  width : Nat
  height : Nat
  title : String
  class_name : String

/-- The fixed overlay style of the template. -/
def ttStyle : String :=
  "position: absolute; top:0; left:0; padding:1px 3px; " ++
    "background: #777; color:#fff; font-size: 90%; font-family:sans-serif; "

/-- The interpolated f-string of `Snapshot._repr_html_`: the raw
template with the data URI, class attribute, pixel sizes and title
filled in, before the whitespace post-processing. -/
def htmlRaw (C : Codecs) (s : Snapshot) : String :=
  let png_data := C.array2png s.data
  let src := "data:image/png;base64," ++ String.mk (encodebytesChars png_data)
  let class_str :=
    if s.class_name ≠ "" then "class='" ++ s.class_name ++ "'" else ""
  let img_style :=
    "width:" ++ natStr s.width ++ "px;height:" ++ natStr s.height ++ "px;"
  "\n            <div " ++ class_str ++ " style='position:relative;'>" ++
    "\n                <img src='" ++ src ++ "' style='" ++ img_style ++
    "' />" ++ "\n                <div style='" ++ ttStyle ++ "'>" ++
    s.title ++ "</div>" ++ "\n            </div>\n            "

/-- `Snapshot._repr_html_`: PNG-encode the buffer, base64-armour it into
a data URI, fill the HTML template, then collapse whitespace with
`.replace("\n", "").replace("    ", "").strip()`. -/
def repr_html (C : Codecs) (s : Snapshot) : String :=
  pyStrip (pyReplace (pyReplace (htmlRaw C s) "\n" "") "    " "")

/-- Space-run collapsing: `replace("    ", "")` sends every maximal run
of `n` spaces to `n % 4` spaces (proved equal to `replaceAux` below);
the first argument counts the spaces of the current run already seen. -/
def squash4Aux : Nat → List Char → List Char
  | k, [] => List.replicate (k % 4) ' '
  | k, c :: rest =>
      if c = ' ' then squash4Aux (k + 1) rest
      else List.replicate (k % 4) ' ' ++ c :: squash4Aux 0 rest

/-- `replace("    ", "")` as run collapsing. -/
def squash4 (l : List Char) : List Char := squash4Aux 0 l

/-- Leading-space count. -/
def leadSpaces : List Char → Nat
  | [] => 0
  | c :: rest => if c = ' ' then leadSpaces rest + 1 else 0

/-- The collapsed single-line form `repr_html` is proved to produce:
the container div (with the class attribute when a class name was
given), the img tag carrying the data URI (base64 with its newlines
removed) and the exact pixel size, and the overlay div with the title. -/
def cleanForm (C : Codecs) (s : Snapshot) : List Char :=
  "<div ".data ++
    (if s.class_name ≠ "" then ("class='" ++ s.class_name ++ "'").data
      else []) ++
    " style='position:relative;'>".data ++ "<img src='".data ++
    "data:image/png;base64,".data ++
    (encodebytesChars (C.array2png s.data)).filter (fun c => c ≠ '\n') ++
    "' style='".data ++ "width:".data ++ natDigitsAux (s.width + 1) s.width ++
    "px;height:".data ++ natDigitsAux (s.height + 1) s.height ++
    "px;".data ++ "' />".data ++ "<div style='".data ++ ttStyle.data ++
    "'>".data ++ s.title.data ++ "</div>".data ++ "</div>".data


/-- A concrete snapshot whose title contains a newline (used to refute
the claim as stated). -/
def snapNewlineTitle : Snapshot :=
  { data := sampleRgba, width := 10, height := 10,
    title := "a\nb", class_name := "" }

/-- A concrete well-behaved snapshot used by the witness. -/
def snapPlain : Snapshot :=
  { data := sampleRgba, width := 10, height := 12,
    title := "t", class_name := "snapshot-x" }

end JupyterRfb

namespace JupyterRfb

/-! ### Claim C9: the Snapshot HTML renderer -/

set_option maxRecDepth 100000

theorem replace_newline_eq :
    ∀ (l : List Char) (fuel : Nat), l.length ≤ fuel →
      replaceAux ['\n'] [] fuel l = l.filter fun c => c ≠ '\n' := by
  intro l
  induction l with
  | nil => intro fuel _; cases fuel <;> rfl
  | cons c rest ih =>
    intro fuel hf
    cases fuel with
    | zero => simp at hf
    | succ fuel =>
      simp only [replaceAux]
      simp only [List.length_cons, Nat.succ_le_succ_iff] at hf
      by_cases hc : c = '\n'
      · subst hc
        rw [if_pos ⟨by simp, by simp [List.isPrefixOf]⟩]
        simp [ih fuel hf, List.filter_cons]
      · rw [if_neg]
        · simp [ih fuel hf, List.filter_cons, hc]
        · intro hcon
          have h2 := hcon.2
          simp [List.isPrefixOf] at h2
          exact hc h2.symm

theorem squash4Aux_add4 (t : List Char) :
    ∀ k, squash4Aux (k + 4) t = squash4Aux k t := by
  induction t with
  | nil => intro k; simp [squash4Aux, Nat.add_mod_right]
  | cons c rest ih =>
    intro k
    simp only [squash4Aux]
    by_cases hc : c = ' '
    · rw [if_pos hc, if_pos hc]
      have h4 : k + 4 + 1 = k + 1 + 4 := by omega
      rw [h4, ih]
    · rw [if_neg hc, if_neg hc, Nat.add_mod_right]

theorem leadSpaces_prefix (n : Nat) :
    ∀ l : List Char,
      (List.replicate n ' ').isPrefixOf l = true ↔ n ≤ leadSpaces l := by
  induction n with
  | zero => intro l; simp [List.replicate, List.isPrefixOf]
  | succ n ih =>
    intro l
    cases l with
    | nil => simp [List.replicate, List.isPrefixOf, leadSpaces]
    | cons c rest =>
      simp only [List.replicate, List.isPrefixOf, Bool.and_eq_true, beq_iff_eq]
      by_cases hc : c = ' '
      · subst hc
        simp [leadSpaces, ih rest, Nat.succ_le_succ_iff]
      · simp [leadSpaces, hc, Ne.symm hc]

theorem sp4_prefix_iff (l : List Char) :
    ([' ', ' ', ' ', ' '].isPrefixOf l) = true ↔ 4 ≤ leadSpaces l := by
  rw [show ([' ', ' ', ' ', ' '] : List Char) = List.replicate 4 ' ' from rfl]
  exact leadSpaces_prefix 4 l

theorem squash4Aux_space_pull (t : List Char) :
    ∀ k, k + 1 + leadSpaces t ≤ 3 →
      squash4Aux (k + 1) t = ' ' :: squash4Aux k t := by
  induction t with
  | nil =>
    intro k hk
    simp only [squash4Aux]
    simp only [leadSpaces] at hk
    rw [Nat.mod_eq_of_lt (by omega), Nat.mod_eq_of_lt (by omega)]
    rfl
  | cons c rest ih =>
    intro k hk
    simp only [squash4Aux]
    by_cases hc : c = ' '
    · rw [if_pos hc, if_pos hc]
      subst hc
      simp [leadSpaces] at hk
      exact ih (k + 1) (by omega)
    · rw [if_neg hc, if_neg hc]
      simp only [leadSpaces, if_neg hc] at hk
      rw [Nat.mod_eq_of_lt (by omega), Nat.mod_eq_of_lt (by omega)]
      rfl

theorem replace_sp4_eq_aux :
    ∀ (n : Nat) (l : List Char), l.length ≤ n →
      ∀ fuel, l.length ≤ fuel →
        replaceAux [' ', ' ', ' ', ' '] [] fuel l = squash4 l := by
  intro n
  induction n with
  | zero =>
    intro l hl fuel hf
    have hnil : l = [] := List.length_eq_zero.mp (Nat.le_zero.mp hl)
    subst hnil
    cases fuel <;> rfl
  | succ n ih =>
    intro l hl fuel hf
    cases l with
    | nil => cases fuel <;> rfl
    | cons c rest =>
      cases fuel with
      | zero => simp at hf
      | succ fuel =>
        simp only [List.length_cons, Nat.succ_le_succ_iff] at hl hf
        simp only [replaceAux]
        by_cases hpre :
            (List.isPrefixOf [' ', ' ', ' ', ' '] (c :: rest)) = true
        · rw [if_pos ⟨by simp, hpre⟩]
          cases rest with
          | nil => simp [List.isPrefixOf] at hpre
          | cons c2 rest2 =>
            cases rest2 with
            | nil => simp [List.isPrefixOf] at hpre
            | cons c3 rest3 =>
              cases rest3 with
              | nil => simp [List.isPrefixOf] at hpre
              | cons c4 rest4 =>
                simp only [List.isPrefixOf, Bool.and_eq_true,
                  beq_iff_eq] at hpre
                obtain ⟨h1, h2, h3, h4, -⟩ := hpre
                subst h1
                subst h2
                subst h3
                subst h4
                simp only [List.length_cons] at hl hf
                rw [show List.drop ([' ', ' ', ' ', ' '].length - 1)
                    (' ' :: ' ' :: ' ' :: rest4) = rest4 from rfl]
                rw [ih rest4 (by omega) fuel (by omega)]
                show squash4 rest4 = squash4Aux (0 + 4) rest4
                rw [squash4Aux_add4]
                rfl
        · rw [if_neg (fun hcon => hpre hcon.2)]
          rw [ih rest (by omega) fuel (by omega)]
          by_cases hc : c = ' '
          · subst hc
            have hlead : leadSpaces rest ≤ 2 := by
              by_contra hgt
              apply hpre
              rw [sp4_prefix_iff]
              simp [leadSpaces]
              omega
            show ' ' :: squash4 rest = squash4Aux (0 + 1) rest
            rw [squash4Aux_space_pull rest 0 (by omega)]
            rfl
          · show c :: squash4 rest = squash4 (c :: rest)
            unfold squash4
            simp [squash4Aux, hc]

theorem replace_sp4_eq (l : List Char) (fuel : Nat) (hf : l.length ≤ fuel) :
    replaceAux [' ', ' ', ' ', ' '] [] fuel l = squash4 l :=
  replace_sp4_eq_aux l.length l le_rfl fuel hf

theorem squash4Aux_append_headne (a : List Char) :
    ∀ (k : Nat) (b : List Char) (c : Char), b.head? = some c → c ≠ ' ' →
      squash4Aux k (a ++ b) = squash4Aux k a ++ squash4 b := by
  induction a with
  | nil =>
    intro k b c hh hc
    cases b with
    | nil => simp at hh
    | cons c0 rest =>
      injection hh with hh
      subst hh
      simp only [List.nil_append, squash4Aux, if_neg hc, squash4]
      rfl
  | cons x a' ih =>
    intro k b c hh hc
    simp only [List.cons_append, squash4Aux, List.append_eq]
    by_cases hx : x = ' '
    · rw [if_pos hx, if_pos hx, ih (k + 1) b c hh hc]
    · rw [if_neg hx, if_neg hx, ih 0 b c hh hc]
      simp

theorem squash4Aux_append_lastne (a : List Char) (k : Nat) (b : List Char)
    (c : Char) (hl : a.getLast? = some c) (hc : c ≠ ' ') :
    squash4Aux k (a ++ b) = squash4Aux k a ++ squash4 b := by
  have hmem : c ∈ a.getLast? := by rw [hl]; rfl
  have hdecomp := List.dropLast_append_getLast? c hmem
  have h1 : squash4 (c :: b) = c :: squash4 b := by
    unfold squash4
    simp [squash4Aux, hc]
  have h2 : squash4 [c] = [c] := by
    unfold squash4
    simp [squash4Aux, hc]
  rw [← hdecomp, List.append_assoc]
  rw [squash4Aux_append_headne a.dropLast k ([c] ++ b) c rfl hc]
  rw [squash4Aux_append_headne a.dropLast k [c] c rfl hc]
  rw [show ([c] ++ b) = c :: b from rfl, h1, h2, List.append_assoc]
  rfl

theorem squash4_of_no_space (l : List Char) (h : ∀ c ∈ l, c ≠ ' ') :
    squash4 l = l := by
  unfold squash4
  induction l with
  | nil => rfl
  | cons c rest ih =>
    have hc : c ≠ ' ' := h c (by simp)
    simp only [squash4Aux, if_neg hc]
    rw [show squash4Aux 0 rest = rest from
      ih fun x hx => h x (by simp [hx])]
    rfl

theorem mem_squash4Aux (l : List Char) :
    ∀ (k : Nat) (c : Char), c ∈ squash4Aux k l → c = ' ' ∨ c ∈ l := by
  induction l with
  | nil =>
    intro k c hc
    simp only [squash4Aux] at hc
    exact Or.inl (List.eq_of_mem_replicate hc)
  | cons x rest ih =>
    intro k c hc
    simp only [squash4Aux] at hc
    by_cases hx : x = ' '
    · rw [if_pos hx] at hc
      rcases ih (k + 1) c hc with h | h
      · exact Or.inl h
      · exact Or.inr (by simp [h])
    · rw [if_neg hx] at hc
      rcases List.mem_append.mp hc with h | h
      · exact Or.inl (List.eq_of_mem_replicate h)
      · rcases List.mem_cons.mp h with h | h
        · exact Or.inr (by simp [h])
        · rcases ih 0 c h with h2 | h2
          · exact Or.inl h2
          · exact Or.inr (by simp [h2])

theorem mem_stripChars (l : List Char) (c : Char) (h : c ∈ stripChars l) :
    c ∈ l := by
  unfold stripChars at h
  rw [List.mem_reverse] at h
  have h1 := (List.dropWhile_sublist _).mem h
  rw [List.mem_reverse] at h1
  exact (List.dropWhile_sublist _).mem h1

theorem stripChars_eq_self (l : List Char) (c1 c2 : Char)
    (hh : l.head? = some c1) (hw1 : ¬ c1.isWhitespace)
    (hl : l.getLast? = some c2) (hw2 : ¬ c2.isWhitespace) :
    stripChars l = l := by
  unfold stripChars
  have hdw1 : l.dropWhile Char.isWhitespace = l := by
    cases l with
    | nil => rfl
    | cons x rest =>
      have hx : x = c1 := by simpa using hh
      rw [List.dropWhile_cons_of_neg (by rw [hx]; simpa using hw1)]
  rw [hdw1]
  have hrev : l.reverse.dropWhile Char.isWhitespace = l.reverse := by
    cases hrc : l.reverse with
    | nil => rfl
    | cons y ys =>
      have hy : y = c2 := by
        have hrh := List.head?_reverse l
        rw [hrc, hl] at hrh
        simpa using hrh
      rw [List.dropWhile_cons_of_neg (by rw [hy]; simpa using hw2)]
  rw [hrev, List.reverse_reverse]

theorem getD_mem_or {α : Type} (l : List α) (n : Nat) (d : α) :
    l.getD n d ∈ l ∨ l.getD n d = d := by
  induction l generalizing n with
  | nil => exact Or.inr rfl
  | cons x rest ih =>
    cases n with
    | zero => exact Or.inl (by simp [List.getD])
    | succ n =>
      rcases ih n with h | h
      · exact Or.inl (by simp [List.getD] at h ⊢; exact Or.inr h)
      · exact Or.inr (by simpa [List.getD] using h)

theorem b64char_mem (n : Nat) : b64char n ∈ b64Table := by
  rcases getD_mem_or b64Table n 'A' with h | h
  · exact h
  · rw [b64char, h]; decide

theorem mem_b64Encode3 (g : List Nat) (c : Char) (h : c ∈ b64Encode3 g) :
    c ∈ b64Table ∨ c = '=' := by
  match g with
  | [] => simp [b64Encode3] at h
  | [b1] =>
    simp only [b64Encode3, List.mem_cons, List.mem_singleton] at h
    rcases h with rfl | rfl | rfl | h
    · exact Or.inl (b64char_mem _)
    · exact Or.inl (b64char_mem _)
    · exact Or.inr rfl
    · simp at h
      exact Or.inr h
  | [b1, b2] =>
    simp only [b64Encode3, List.mem_cons, List.mem_singleton] at h
    rcases h with rfl | rfl | rfl | h
    · exact Or.inl (b64char_mem _)
    · exact Or.inl (b64char_mem _)
    · exact Or.inl (b64char_mem _)
    · simp at h
      exact Or.inr h
  | b1 :: b2 :: b3 :: rest =>
    simp only [b64Encode3, List.mem_cons, List.mem_singleton] at h
    rcases h with rfl | rfl | rfl | h
    · exact Or.inl (b64char_mem _)
    · exact Or.inl (b64char_mem _)
    · exact Or.inl (b64char_mem _)
    · simp at h
      subst h
      exact Or.inl (b64char_mem _)

theorem mem_b64Chunks_aux :
    ∀ (n : Nat) (bs : List Nat), bs.length ≤ n →
      ∀ c ∈ b64Chunks bs, c ∈ b64Table ∨ c = '=' := by
  intro n
  induction n with
  | zero =>
    intro bs hl c hc
    have hnil : bs = [] := List.length_eq_zero.mp (Nat.le_zero.mp hl)
    subst hnil
    simp [b64Chunks] at hc
  | succ n ih =>
    intro bs hl c hc
    match bs with
    | [] => simp [b64Chunks] at hc
    | [b1] => exact mem_b64Encode3 _ _ hc
    | [b1, b2] => exact mem_b64Encode3 _ _ hc
    | b1 :: b2 :: b3 :: rest =>
      simp only [b64Chunks, List.mem_append] at hc
      rcases hc with hc | hc
      · exact mem_b64Encode3 _ _ hc
      · exact ih rest (by simp at hl; omega) c hc

theorem mem_b64Chunks (bs : List Nat) (c : Char) (h : c ∈ b64Chunks bs) :
    c ∈ b64Table ∨ c = '=' :=
  mem_b64Chunks_aux bs.length bs le_rfl c h

theorem mem_encodebytesChars (bs : List Nat) (c : Char)
    (h : c ∈ encodebytesChars bs) : c ∈ b64Table ∨ c = '=' ∨ c = '\n' := by
  unfold encodebytesChars at h
  rw [List.mem_flatten] at h
  obtain ⟨piece, hpiece, hc⟩ := h
  rw [List.mem_map] at hpiece
  obtain ⟨g, _, rfl⟩ := hpiece
  rw [List.mem_append] at hc
  rcases hc with hc | hc
  · rcases mem_b64Chunks g c hc with h | h
    · exact Or.inl h
    · exact Or.inr (Or.inl h)
  · simp at hc
    exact Or.inr (Or.inr hc)

theorem b64Table_no_space : ∀ x ∈ b64Table, x ≠ ' ' := by decide

theorem encodebytesChars_no_space (bs : List Nat) (c : Char)
    (h : c ∈ encodebytesChars bs) : c ≠ ' ' := by
  rcases mem_encodebytesChars bs c h with h | h | h
  · exact b64Table_no_space c h
  · subst h; decide
  · subst h; decide

theorem mem_natDigitsAux (fuel n : Nat) (c : Char)
    (h : c ∈ natDigitsAux fuel n) : c ∈ "0123456789".data := by
  induction fuel generalizing n with
  | zero => simp [natDigitsAux] at h
  | succ fuel ih =>
    simp only [natDigitsAux] at h
    by_cases hn : n < 10
    · rw [if_pos hn] at h
      rw [List.mem_singleton] at h
      subst h
      rcases getD_mem_or "0123456789".data n '0' with h2 | h2
      · exact h2
      · rw [digitChar, h2]; decide
    · rw [if_neg hn, List.mem_append] at h
      rcases h with h | h
      · exact ih _ h
      · rw [List.mem_singleton] at h
        subst h
        rcases getD_mem_or "0123456789".data (n % 10) '0' with h2 | h2
        · exact h2
        · rw [digitChar, h2]; decide

theorem digits_no_space : ∀ x ∈ "0123456789".data, x ≠ ' ' := by decide

theorem digits_no_newline : ∀ x ∈ "0123456789".data, x ≠ '\n' := by decide

theorem natDigitsAux_no_space (fuel n : Nat) (c : Char)
    (h : c ∈ natDigitsAux fuel n) : c ≠ ' ' :=
  digits_no_space c (mem_natDigitsAux fuel n c h)

theorem natDigitsAux_no_newline (fuel n : Nat) (c : Char)
    (h : c ∈ natDigitsAux fuel n) : c ≠ '\n' :=
  digits_no_newline c (mem_natDigitsAux fuel n c h)

/-- The post-processing pipeline of `_repr_html_`, characterised:
newline removal, space-run collapsing, strip. -/
theorem pipeline_eq (C : Codecs) (s : Snapshot) :
    (repr_html C s).data =
      stripChars (squash4
        ((htmlRaw C s).data.filter fun c => c ≠ '\n')) := by
  unfold repr_html pyStrip pyReplace
  dsimp only
  rw [replace_newline_eq _ _ le_rfl, replace_sp4_eq _ _ le_rfl]

theorem squash4_append_right (a : List Char) {R sR : List Char}
    (sa : List Char) {c : Char} (hR : squash4 R = sR) (ha : squash4 a = sa)
    (hh : R.head? = some c) (hc : c ≠ ' ') :
    squash4 (a ++ R) = sa ++ sR := by
  have h1 : squash4 (a ++ R) = squash4 a ++ squash4 R :=
    squash4Aux_append_headne a 0 R c hh hc
  rw [h1, ha, hR]

theorem squash4_append_left (a : List Char) {R sR : List Char}
    (sa : List Char) {c : Char} (hR : squash4 R = sR) (ha : squash4 a = sa)
    (hl : a.getLast? = some c) (hc : c ≠ ' ') :
    squash4 (a ++ R) = sa ++ sR := by
  have h1 : squash4 (a ++ R) = squash4 a ++ squash4 R :=
    squash4Aux_append_lastne a 0 R c hl hc
  rw [h1, ha, hR]

theorem getLast?_chain {B : List Char} (A : List Char) {c : Char}
    (h : B.getLast? = some c) : (A ++ B).getLast? = some c := by
  have hne : B ≠ [] := by
    intro hB
    subst hB
    simp at h
  rw [List.getLast?_append_of_ne_nil A hne]
  exact h


theorem repr_html_eq_cleanForm (C : Codecs) (s : Snapshot)
    (ht_nl : ∀ c ∈ s.title.data, c ≠ '\n')
    (ht_sq : squash4 s.title.data = s.title.data)
    (hc_nl : ∀ c ∈ s.class_name.data, c ≠ '\n')
    (hc_sq : squash4 s.class_name.data = s.class_name.data) :
    (repr_html C s).data = cleanForm C s := by
  have hBf : squash4 (List.filter (fun c => c ≠ '\n') (encodebytesChars (C.array2png s.data))) = List.filter (fun c => c ≠ '\n') (encodebytesChars (C.array2png s.data)) :=
    squash4_of_no_space _ fun c hc =>
      encodebytesChars_no_space _ c (List.mem_filter.mp hc).1
  have hW : squash4 (natDigitsAux (s.width + 1) s.width) = natDigitsAux (s.width + 1) s.width :=
    squash4_of_no_space _ fun c hc => natDigitsAux_no_space _ _ c hc
  have hH : squash4 (natDigitsAux (s.height + 1) s.height) = natDigitsAux (s.height + 1) s.height :=
    squash4_of_no_space _ fun c hc => natDigitsAux_no_space _ _ c hc
  have hWf : List.filter (fun c => c ≠ '\n') (natDigitsAux (s.width + 1) s.width) = natDigitsAux (s.width + 1) s.width :=
    List.filter_eq_self.mpr fun c hc =>
      decide_eq_true (natDigitsAux_no_newline _ _ c hc)
  have hHf : List.filter (fun c => c ≠ '\n') (natDigitsAux (s.height + 1) s.height) = natDigitsAux (s.height + 1) s.height :=
    List.filter_eq_self.mpr fun c hc =>
      decide_eq_true (natDigitsAux_no_newline _ _ c hc)
  have hTIf : List.filter (fun c => c ≠ '\n') s.title.data = s.title.data :=
    List.filter_eq_self.mpr fun c hc => decide_eq_true (ht_nl c hc)
  have hCf : List.filter (fun c => c ≠ '\n') s.class_name.data = s.class_name.data :=
    List.filter_eq_self.mpr fun c hc => decide_eq_true (hc_nl c hc)
  have htail : squash4 (List.filter (fun c => c ≠ '\n') "\n                <img src='".data ++ ("data:image/png;base64,".data ++ (List.filter (fun c => c ≠ '\n') (encodebytesChars (C.array2png s.data)) ++ ("' style='".data ++ ("width:".data ++ (natDigitsAux (s.width + 1) s.width ++ ("px;height:".data ++ (natDigitsAux (s.height + 1) s.height ++ ("px;".data ++ ("' />".data ++ (List.filter (fun c => c ≠ '\n') "\n                <div style='".data ++ (ttStyle.data ++ ("'>".data ++ (s.title.data ++ ("</div>".data ++ (List.filter (fun c => c ≠ '\n') "\n            </div>\n            ".data)))))))))))))))) = "<img src='".data ++ ("data:image/png;base64,".data ++ (List.filter (fun c => c ≠ '\n') (encodebytesChars (C.array2png s.data)) ++ ("' style='".data ++ ("width:".data ++ (natDigitsAux (s.width + 1) s.width ++ ("px;height:".data ++ (natDigitsAux (s.height + 1) s.height ++ ("px;".data ++ ("' />".data ++ ("<div style='".data ++ (ttStyle.data ++ ("'>".data ++ (s.title.data ++ ("</div>".data ++ ("</div>".data))))))))))))))) := by
    refine squash4_append_left _ _ ?_ (by decide) rfl (by decide)
    refine squash4_append_left _ _ ?_ (by decide) rfl (by decide)
    refine squash4_append_right _ _ ?_ hBf rfl (by decide)
    refine squash4_append_left _ _ ?_ (by decide) rfl (by decide)
    refine squash4_append_left _ _ ?_ (by decide) rfl (by decide)
    refine squash4_append_right _ _ ?_ hW rfl (by decide)
    refine squash4_append_left _ _ ?_ (by decide) rfl (by decide)
    refine squash4_append_right _ _ ?_ hH rfl (by decide)
    refine squash4_append_left _ _ ?_ (by decide) rfl (by decide)
    refine squash4_append_left _ _ ?_ (by decide) rfl (by decide)
    refine squash4_append_left _ _ ?_ (by decide) rfl (by decide)
    refine squash4_append_right _ _ ?_ (by decide) rfl (by decide)
    refine squash4_append_left _ _ ?_ (by decide) rfl (by decide)
    refine squash4_append_right _ _ ?_ ht_sq rfl (by decide)
    exact squash4_append_left _ _ (by decide) (by decide) rfl (by decide)
  rw [pipeline_eq]
  by_cases hcls : s.class_name = ""
  · have hdata : (htmlRaw C s).data =
        "\n            <div ".data ++ (" style='position:relative;'>".data ++ ("\n                <img src='".data ++ ("data:image/png;base64,".data ++ (encodebytesChars (C.array2png s.data) ++ ("' style='".data ++ ("width:".data ++ (natDigitsAux (s.width + 1) s.width ++ ("px;height:".data ++ (natDigitsAux (s.height + 1) s.height ++ ("px;".data ++ ("' />".data ++ ("\n                <div style='".data ++ (ttStyle.data ++ ("'>".data ++ (s.title.data ++ ("</div>".data ++ ("\n            </div>\n            ".data))))))))))))))))) := by
      simp [htmlRaw, hcls, natStr, String.data_append, List.append_assoc]
    rw [hdata]
    simp only [List.filter_append]
    rw [hTIf, hWf, hHf]
    rw [show List.filter (fun c => c ≠ '\n') " style='position:relative;'>".data = " style='position:relative;'>".data from by decide]
    rw [show List.filter (fun c => c ≠ '\n') "data:image/png;base64,".data = "data:image/png;base64,".data from by decide]
    rw [show List.filter (fun c => c ≠ '\n') "' style='".data = "' style='".data from by decide]
    rw [show List.filter (fun c => c ≠ '\n') "width:".data = "width:".data from by decide]
    rw [show List.filter (fun c => c ≠ '\n') "px;height:".data = "px;height:".data from by decide]
    rw [show List.filter (fun c => c ≠ '\n') "px;".data = "px;".data from by decide]
    rw [show List.filter (fun c => c ≠ '\n') "' />".data = "' />".data from by decide]
    rw [show List.filter (fun c => c ≠ '\n') "'>".data = "'>".data from by decide]
    rw [show List.filter (fun c => c ≠ '\n') "</div>".data = "</div>".data from by decide]
    rw [show List.filter (fun c => c ≠ '\n') ttStyle.data = ttStyle.data from by decide]
    rw [show List.filter (fun c => c ≠ '\n') "\n            <div ".data ++ (" style='position:relative;'>".data ++ ((List.filter (fun c => c ≠ '\n') "\n                <img src='".data ++ ("data:image/png;base64,".data ++ (List.filter (fun c => c ≠ '\n') (encodebytesChars (C.array2png s.data)) ++ ("' style='".data ++ ("width:".data ++ (natDigitsAux (s.width + 1) s.width ++ ("px;height:".data ++ (natDigitsAux (s.height + 1) s.height ++ ("px;".data ++ ("' />".data ++ (List.filter (fun c => c ≠ '\n') "\n                <div style='".data ++ (ttStyle.data ++ ("'>".data ++ (s.title.data ++ ("</div>".data ++ (List.filter (fun c => c ≠ '\n') "\n            </div>\n            ".data)))))))))))))))))) =
        (List.filter (fun c => c ≠ '\n') "\n            <div ".data ++ " style='position:relative;'>".data) ++ (List.filter (fun c => c ≠ '\n') "\n                <img src='".data ++ ("data:image/png;base64,".data ++ (List.filter (fun c => c ≠ '\n') (encodebytesChars (C.array2png s.data)) ++ ("' style='".data ++ ("width:".data ++ (natDigitsAux (s.width + 1) s.width ++ ("px;height:".data ++ (natDigitsAux (s.height + 1) s.height ++ ("px;".data ++ ("' />".data ++ (List.filter (fun c => c ≠ '\n') "\n                <div style='".data ++ (ttStyle.data ++ ("'>".data ++ (s.title.data ++ ("</div>".data ++ (List.filter (fun c => c ≠ '\n') "\n            </div>\n            ".data)))))))))))))))) from by
      rw [List.append_assoc]]
    rw [show List.filter (fun c => c ≠ '\n') "\n            <div ".data ++ " style='position:relative;'>".data =
        "            <div  style='position:relative;'>".data from by decide]
    have hsq : squash4
        ("            <div  style='position:relative;'>".data ++
          (List.filter (fun c => c ≠ '\n') "\n                <img src='".data ++ ("data:image/png;base64,".data ++ (List.filter (fun c => c ≠ '\n') (encodebytesChars (C.array2png s.data)) ++ ("' style='".data ++ ("width:".data ++ (natDigitsAux (s.width + 1) s.width ++ ("px;height:".data ++ (natDigitsAux (s.height + 1) s.height ++ ("px;".data ++ ("' />".data ++ (List.filter (fun c => c ≠ '\n') "\n                <div style='".data ++ (ttStyle.data ++ ("'>".data ++ (s.title.data ++ ("</div>".data ++ (List.filter (fun c => c ≠ '\n') "\n            </div>\n            ".data))))))))))))))))) =
        "<div  style='position:relative;'>".data ++ ("<img src='".data ++ ("data:image/png;base64,".data ++ (List.filter (fun c => c ≠ '\n') (encodebytesChars (C.array2png s.data)) ++ ("' style='".data ++ ("width:".data ++ (natDigitsAux (s.width + 1) s.width ++ ("px;height:".data ++ (natDigitsAux (s.height + 1) s.height ++ ("px;".data ++ ("' />".data ++ ("<div style='".data ++ (ttStyle.data ++ ("'>".data ++ (s.title.data ++ ("</div>".data ++ ("</div>".data)))))))))))))))) :=
      squash4_append_left _ _ htail (by decide) rfl (by decide)
    rw [hsq]
    refine Eq.trans
      (stripChars_eq_self _ '<' '>' rfl (by decide) ?_ (by decide)) ?_
    · repeat apply getLast?_chain
      decide
    · simp only [cleanForm, if_neg (not_not_intro hcls), List.nil_append,
        String.data_append, List.append_assoc]
      simp only [List.cons_append, List.nil_append]
  · have hcls2 : s.class_name ≠ "" := hcls
    have hdata : (htmlRaw C s).data =
        "\n            <div ".data ++ ("class='".data ++ (s.class_name.data ++ ("'".data ++ (" style='position:relative;'>".data ++ ("\n                <img src='".data ++ ("data:image/png;base64,".data ++ (encodebytesChars (C.array2png s.data) ++ ("' style='".data ++ ("width:".data ++ (natDigitsAux (s.width + 1) s.width ++ ("px;height:".data ++ (natDigitsAux (s.height + 1) s.height ++ ("px;".data ++ ("' />".data ++ ("\n                <div style='".data ++ (ttStyle.data ++ ("'>".data ++ (s.title.data ++ ("</div>".data ++ ("\n            </div>\n            ".data)))))))))))))))))))) := by
      simp [htmlRaw, if_pos hcls2, natStr, String.data_append,
        List.append_assoc]
    rw [hdata]
    simp only [List.filter_append]
    rw [hTIf, hWf, hHf, hCf]
    rw [show List.filter (fun c => c ≠ '\n') " style='position:relative;'>".data = " style='position:relative;'>".data from by decide]
    rw [show List.filter (fun c => c ≠ '\n') "data:image/png;base64,".data = "data:image/png;base64,".data from by decide]
    rw [show List.filter (fun c => c ≠ '\n') "' style='".data = "' style='".data from by decide]
    rw [show List.filter (fun c => c ≠ '\n') "width:".data = "width:".data from by decide]
    rw [show List.filter (fun c => c ≠ '\n') "px;height:".data = "px;height:".data from by decide]
    rw [show List.filter (fun c => c ≠ '\n') "px;".data = "px;".data from by decide]
    rw [show List.filter (fun c => c ≠ '\n') "' />".data = "' />".data from by decide]
    rw [show List.filter (fun c => c ≠ '\n') "'>".data = "'>".data from by decide]
    rw [show List.filter (fun c => c ≠ '\n') "</div>".data = "</div>".data from by decide]
    rw [show List.filter (fun c => c ≠ '\n') "class='".data = "class='".data from by decide]
    rw [show List.filter (fun c => c ≠ '\n') "'".data = "'".data from by decide]
    rw [show List.filter (fun c => c ≠ '\n') ttStyle.data = ttStyle.data from by decide]
    have hsq : squash4
        (List.filter (fun c => c ≠ '\n') "\n            <div ".data ++ ("class='".data ++ (s.class_name.data ++ ("'".data ++ (" style='position:relative;'>".data ++ ((List.filter (fun c => c ≠ '\n') "\n                <img src='".data ++ ("data:image/png;base64,".data ++ (List.filter (fun c => c ≠ '\n') (encodebytesChars (C.array2png s.data)) ++ ("' style='".data ++ ("width:".data ++ (natDigitsAux (s.width + 1) s.width ++ ("px;height:".data ++ (natDigitsAux (s.height + 1) s.height ++ ("px;".data ++ ("' />".data ++ (List.filter (fun c => c ≠ '\n') "\n                <div style='".data ++ (ttStyle.data ++ ("'>".data ++ (s.title.data ++ ("</div>".data ++ (List.filter (fun c => c ≠ '\n') "\n            </div>\n            ".data)))))))))))))))))))))) =
        "<div ".data ++ ("class='".data ++ (s.class_name.data ++ ("'".data ++ (" style='position:relative;'>".data ++ (("<img src='".data ++ ("data:image/png;base64,".data ++ (List.filter (fun c => c ≠ '\n') (encodebytesChars (C.array2png s.data)) ++ ("' style='".data ++ ("width:".data ++ (natDigitsAux (s.width + 1) s.width ++ ("px;height:".data ++ (natDigitsAux (s.height + 1) s.height ++ ("px;".data ++ ("' />".data ++ ("<div style='".data ++ (ttStyle.data ++ ("'>".data ++ (s.title.data ++ ("</div>".data ++ ("</div>".data))))))))))))))))))))) := by
      refine squash4_append_right _ _ ?_ (by decide) rfl (by decide)
      refine squash4_append_left _ _ ?_ (by decide) rfl (by decide)
      refine squash4_append_right _ _ ?_ hc_sq rfl (by decide)
      refine squash4_append_left _ _ ?_ (by decide) rfl (by decide)
      exact squash4_append_left _ _ htail (by decide) rfl (by decide)
    rw [hsq]
    refine Eq.trans
      (stripChars_eq_self _ '<' '>' rfl (by decide) ?_ (by decide)) ?_
    · repeat apply getLast?_chain
      decide
    · simp only [cleanForm, if_pos hcls2, String.data_append,
        List.append_assoc]

theorem repr_html_no_newline (C : Codecs) (s : Snapshot) :
    ∀ c ∈ (repr_html C s).data, c ≠ '\n' := by
  intro c hc
  rw [pipeline_eq] at hc
  have h1 := mem_stripChars _ _ hc
  rcases mem_squash4Aux _ 0 _ h1 with h2 | h2
  · subst h2; decide
  · intro hne
    subst hne
    have h3 := (List.mem_filter.mp h2).2
    simp at h3

/-- C9 counterexample: the claim quantifies over every title, but for the
title "a\nb" (which contains a newline) the rendered HTML — which never
contains a newline — cannot contain the title text, so the overlay div
does not carry the title as given. -/
theorem repr_html_newline_title_counterexample :
    ('\n' ∈ "a\nb".data) ∧
      strContainsSub (repr_html codecsNoJxl snapNewlineTitle) "a\nb" =
        false :=
  ⟨by decide, by decide⟩

/-- C9 (amended): for titles and class names free of newlines and of
four-space runs (which the whitespace collapsing would alter), rendering
produces exactly the single-line normal form `cleanForm` — one img tag
carrying the base64 data URI and the width/height pixel style, wrapped
in the container div with the class attribute when a class name is
given, followed by the overlay div holding the title; the output never
contains a newline, and rendering is deterministic. -/
theorem repr_html_single_line_normal_form (C : Codecs) (s : Snapshot)
    (ht_nl : ∀ c ∈ s.title.data, c ≠ '\n')
    (ht_sq : squash4 s.title.data = s.title.data)
    (hc_nl : ∀ c ∈ s.class_name.data, c ≠ '\n')
    (hc_sq : squash4 s.class_name.data = s.class_name.data) :
    (repr_html C s).data = cleanForm C s ∧
      (∀ c ∈ (repr_html C s).data, c ≠ '\n') ∧
      repr_html C s = repr_html C s :=
  ⟨repr_html_eq_cleanForm C s ht_nl ht_sq hc_nl hc_sq,
   repr_html_no_newline C s, rfl⟩

theorem repr_html_single_line_normal_form_witness :
    (∀ c ∈ snapPlain.title.data, c ≠ '\n') ∧
      squash4 snapPlain.title.data = snapPlain.title.data ∧
      (∀ c ∈ snapPlain.class_name.data, c ≠ '\n') ∧
      squash4 snapPlain.class_name.data = snapPlain.class_name.data ∧
      (repr_html codecsNoJxl snapPlain).data = cleanForm codecsNoJxl snapPlain :=
  ⟨by decide, by decide, by decide, by decide,
   (repr_html_single_line_normal_form codecsNoJxl snapPlain (by decide)
      (by decide) (by decide) (by decide)).1⟩

end JupyterRfb
